import Mathlib

/-!
Shallow embedding of the real-time document dashboard core
(`web_ui/frontend/src/components/Dashboard.jsx`).

A JavaScript object field that may be absent is modelled as an `Option`
(with JSON `null` conflated with "absent", which no studied claim
distinguishes).  `last_updated` is an ISO date string in the code, used
only through `new Date(...)` subtraction in the sort comparator; since
date parsing is order-isomorphic to the chronological order we model the
timestamp directly as an `Int`.
-/

namespace DocProcessor

/-- A document / push-event record, with the fields the frontend reads
(`document_id`, `filename`, `status`, `doc_type`, `confidence`,
`routing_destination`, `last_updated`, `vip_level`,
`override_in_progress`, `override_type`).  Push events are shaped like
documents (the payload updates both the timeline and the entity), so the
same record type models both. -/
structure Doc where
  document_id : String
  filename : Option String := none
  status : Option String := none
  doc_type : Option String := none
  confidence : Option ℚ := none
  routing_destination : Option String := none
  last_updated : Option Int := none
  vip_level : Option String := none
  override_in_progress : Option Bool := none
  override_type : Option String := none
deriving DecidableEq

/-- Sort key used by the comparator
`(a, b) => new Date(b.last_updated) - new Date(a.last_updated)`.
All claims are stated for records that carry a `last_updated`; the
default `0` is never exercised under those hypotheses. -/
def keyOf (d : Doc) : Int := d.last_updated.getD 0

/-- The merge performed at `Dashboard.jsx:189-194`:
`{ ...oldDoc, ...event, override_in_progress: false, override_type: null }` —
every field present on the event overwrites, absent fields keep the old
value, and the override bookkeeping is cleared unconditionally. -/
def mergeDoc (d e : Doc) : Doc where
  document_id := e.document_id
  filename := e.filename <|> d.filename
  status := e.status <|> d.status
  doc_type := e.doc_type <|> d.doc_type
  confidence := e.confidence <|> d.confidence
  routing_destination := e.routing_destination <|> d.routing_destination
  last_updated := e.last_updated <|> d.last_updated
  vip_level := e.vip_level <|> d.vip_level
  override_in_progress := some false
  override_type := none

/-- `newDocs[docIndex] = updatedDoc` after `findIndex`: replace the first
document whose id matches the event's id by the merge. -/
def updateFirst (e : Doc) : List Doc → List Doc
  | [] => []
  | d :: ds =>
    if d.document_id = e.document_id then mergeDoc d e :: ds
    else d :: updateFirst e ds

/-- Stable insertion (descending by `keyOf`): the inserted element goes
in front of the first element whose key is `≤` its own, which is exactly
where a stable sort puts an element that precedes them in the input. -/
def insertDoc (d : Doc) : List Doc → List Doc
  | [] => [d]
  | x :: xs => if keyOf x ≤ keyOf d then d :: x :: xs else x :: insertDoc d xs

/-- `newDocs.sort((a, b) => new Date(b.last_updated) - new Date(a.last_updated))`
(`Dashboard.jsx:200`).  JavaScript `Array.prototype.sort` is stable
(ES2019), and a stable sort for a total preorder comparator has a unique
result, so stable insertion sort computes the same list. -/
def sortDocs : List Doc → List Doc
  | [] => []
  | d :: ds => insertDoc d (sortDocs ds)

/-- The document-store part of `ws.onmessage` (`Dashboard.jsx:184-203`):
`findIndex` by `document_id`; on a hit merge in place, on a miss prepend
the raw event; then sort the whole list by `last_updated` descending. -/
def upsert (docs : List Doc) (e : Doc) : List Doc :=
  if ∃ d ∈ docs, d.document_id = e.document_id then
    sortDocs (updateFirst e docs)
  else
    sortDocs (e :: docs)

/-- The `expandedRow` state: the single history-cache entry the dashboard
keeps, `{ id, history, showRouteOptions? }`. -/
structure ExpandedRow where
  id : String
  history : List Doc
  showRouteOptions : Option String := none
deriving DecidableEq

/-- The dashboard state touched by the studied handlers: `documents`,
`expandedRow`, `error`, `wsConnected`. -/
structure ClientState where
  documents : List Doc
  expandedRow : Option ExpandedRow
  error : Option String
  wsConnected : Bool
deriving DecidableEq

/-- Processing of one successfully parsed push event
(`Dashboard.jsx:182-214`): upsert into the document list, then update
`expandedRow` — a brand-new document replaces the entry with a
one-event timeline; an event for the currently expanded document is
appended to its history; otherwise the entry is left alone. -/
def processEvent (st : ClientState) (e : Doc) : ClientState :=
  let isNew : Bool := decide (¬ ∃ d ∈ st.documents, d.document_id = e.document_id)
  let newExpanded : Option ExpandedRow :=
    if isNew then some ⟨e.document_id, [e], none⟩
    else
      match st.expandedRow with
      | some ex =>
        if ex.id = e.document_id then some { ex with history := ex.history ++ [e] }
        else some ex
      | none => none
  { st with documents := upsert st.documents e, expandedRow := newExpanded }

/-- Body of the `ws.onmessage` handler before its `catch`: `JSON.parse`
throws on a malformed frame (modelled by the frame carrying no event),
otherwise the event is processed.  A frame is represented by the outcome
of parsing it: `none` for a frame that fails to parse as JSON. -/
def onmessageBody (st : ClientState) : Option Doc → Except String ClientState
  | none => Except.error "SyntaxError: JSON.parse"
  | some e => Except.ok (processEvent st e)

/-- The full `ws.onmessage` handler (`Dashboard.jsx:180-218`): the
`try`/`catch` only logs a parse error, leaving all state as it was. -/
def onmessage (st : ClientState) (frame : Option Doc) : ClientState :=
  match onmessageBody st frame with
  | Except.ok st' => st'
  | Except.error _ => st

/-- The optimistic write of `handleManualAction` (`Dashboard.jsx:72-79`):
`docs.map(d => d.document_id === docId ? { ...d, status: `Re-${action}...`,
override_in_progress: true, override_type: action } : d)`. -/
def optimisticUpdate (docs : List Doc) (action docId : String) : List Doc :=
  docs.map fun d =>
    if d.document_id = docId then
      { d with
          status := some ("Re-" ++ action ++ "...")
          override_in_progress := some true
          override_type := some action }
    else d

/-- Outcome of the dispatch POST as seen by `handleManualAction`'s
`catch`: accepted, rejected by the backend with an HTTP status code
(`detail` is `err.response?.data?.detail || err.message`), or a network
error (`err.code === 'ERR_NETWORK'`, no backend response at all). -/
inductive DispatchOutcome
  | accepted
  | rejected (code : Nat) (detail : String)
  | networkError
deriving DecidableEq

/-- The error classification of `handleManualAction`
(`Dashboard.jsx:81-96`) for a rejection that carries a backend HTTP
status code. -/
def rejectionMessage (action : String) (code : Nat) (detail : String) : String :=
  if code = 404 then
    if action = "re-classify" then
      "No extraction data found. Please re-extract the document first."
    else if action = "re-extract" then
      "No original file content found. Cannot re-extract."
    else
      "Document not found or no data available for this action."
  else if code = 500 then
    "Server error during " ++ action ++ ". Please try again."
  else
    "Failed to start re-" ++ action ++ " process: " ++ detail

/-- `handleManualAction` (`Dashboard.jsx:46-98`): on acceptance the
optimistic write plus `setError(null)`; on rejection only the error
banner is set — the document list is not touched. -/
def handleManualAction (st : ClientState) (action docId : String)
    (outcome : DispatchOutcome) : ClientState :=
  match outcome with
  | .accepted =>
    { st with documents := optimisticUpdate st.documents action docId, error := none }
  | .rejected code detail =>
    { st with error := some (rejectionMessage action code detail) }
  | .networkError =>
    { st with error := some "Network error. Please check your connection." }

/-- Outcome of the one-shot `GET /history/:id` request issued by
`handleRowClick`: an array body, a non-array body, an HTTP error with a
status code, or a network error. -/
inductive HistoryFetch
  | okArray (events : List Doc)
  | okOther
  | httpError (code : Nat)
  | networkError
deriving DecidableEq

/-- The expansion path of `handleRowClick` (`Dashboard.jsx:31-42`): the
fetched history (or `[]`) becomes the new `expandedRow`; a non-404 HTTP
error additionally raises the error banner. -/
def expandRow (st : ClientState) (docId : String) (r : HistoryFetch) : ClientState :=
  match r with
  | .okArray h => { st with expandedRow := some ⟨docId, h, none⟩ }
  | .okOther => { st with expandedRow := some ⟨docId, [], none⟩ }
  | .httpError code =>
    { st with
        expandedRow := some ⟨docId, [], none⟩
        error := if code ≠ 404 then some "Could not load document details." else st.error }
  | .networkError => { st with expandedRow := some ⟨docId, [], none⟩ }

/-- `handleRowClick` (`Dashboard.jsx:26-44`).  Clicking the currently
expanded row collapses it (`setExpandedRow(null)`) without any request;
every other click performs the history fetch and stores its result.  The
returned flag records whether a fetch was performed. -/
def handleRowClick (st : ClientState) (docId : String)
    (r : HistoryFetch) : ClientState × Bool :=
  match st.expandedRow with
  | some ex =>
    if ex.id = docId then ({ st with expandedRow := none }, false)
    else (expandRow st docId r, true)
  | none => (expandRow st docId r, true)

/-- State of the reconnect machinery of `connectWebSocket`
(`Dashboard.jsx:153-222`): the `wsConnected` flag, whether the
`reconnectInterval` variable holds a timer, and how many scheduled
timers have not been cancelled (to state that no timer ever leaks). -/
structure ChannelState where
  connected : Bool
  timerSlot : Bool
  liveTimers : Nat
deriving DecidableEq

/-- Lifecycle callbacks of one WebSocket: `onopen`, `onclose`, `onerror`. -/
inductive ChannelEvent
  | opened
  | closed
  | errored
deriving DecidableEq

/-- The handlers at `Dashboard.jsx:157-178`: `onopen` clears the pending
timer if one is stored; `onclose` schedules a timer only when none is
stored; `onerror` only flips the connected flag (and sets the banner). -/
def chStep (s : ChannelState) : ChannelEvent → ChannelState
  | .opened =>
    { connected := true
      timerSlot := false
      liveTimers := if s.timerSlot then s.liveTimers - 1 else s.liveTimers }
  | .closed =>
    if s.timerSlot then { s with connected := false }
    else { connected := false, timerSlot := true, liveTimers := s.liveTimers + 1 }
  | .errored => { s with connected := false }

/-- Initial channel state: not connected, no timer stored, none live. -/
def chInit : ChannelState := ⟨false, false, 0⟩

/-- Run a sequence of lifecycle callbacks from the initial state. -/
def chRun (evs : List ChannelEvent) : ChannelState := evs.foldl chStep chInit

/-- The store-affecting operations of the dashboard.  `snapshot` is the
success path of `fetchInitialDocuments` (`Dashboard.jsx:128-145`):
`setDocuments(response.data)` — the list is stored exactly as received.
Modelled from the spec: the backend `/documents` endpoint is not part of
the sources, and §6 specifies its response as an "ordered or unordered
list", so the snapshot payload is an arbitrary list of records. -/
inductive Op
  | snapshot (docs : List Doc)
  | pushFrame (frame : Option Doc)
  | dispatch (action docId : String) (outcome : DispatchOutcome)
  | rowClick (docId : String) (r : HistoryFetch)

/-- One dashboard operation applied to the client state. -/
def applyOp (st : ClientState) : Op → ClientState
  | .snapshot docs => { st with documents := docs, error := none }
  | .pushFrame f => onmessage st f
  | .dispatch action docId outcome => handleManualAction st action docId outcome
  | .rowClick docId r => (handleRowClick st docId r).1

/-- Run a sequence of dashboard operations. -/
def runOps (st : ClientState) (ops : List Op) : ClientState := ops.foldl applyOp st

/-- The ordering invariant of §8: descending `keyOf` along the list. -/
def SortedByLastUpdatedDesc (l : List Doc) : Prop :=
  l.Pairwise fun a b => keyOf b ≤ keyOf a

/-- The ids of a document list, in order. -/
def ids (l : List Doc) : List String := l.map Doc.document_id

/-- The per-document effect of the merge pass: documents with the
event's id are merged, all others are untouched. -/
def mergeF (e d : Doc) : Doc :=
  if d.document_id = e.document_id then mergeDoc d e else d

/-- Merge applied uniformly to a list (coincides with `updateFirst` on
lists with pairwise-distinct ids). -/
def mapMerge (e : Doc) (l : List Doc) : List Doc := l.map (mergeF e)

theorem orElse_self_left {α : Type} (a b : Option α) :
    (a <|> (a <|> b)) = (a <|> b) := by cases a <;> rfl

theorem mergeDoc_mergeDoc (d e : Doc) : mergeDoc (mergeDoc d e) e = mergeDoc d e := by
  simp [mergeDoc, orElse_self_left]

theorem insertDoc_perm (d : Doc) (l : List Doc) : List.Perm (insertDoc d l) (d :: l) := by
  induction l with
  | nil => rfl
  | cons x xs ih =>
    by_cases h : keyOf x ≤ keyOf d
    · simp [insertDoc, h]
    · rw [insertDoc, if_neg h]
      exact (ih.cons x).trans (List.Perm.swap d x xs)

theorem sortDocs_perm (l : List Doc) : List.Perm (sortDocs l) l := by
  induction l with
  | nil => rfl
  | cons d ds ih => exact (insertDoc_perm d (sortDocs ds)).trans (ih.cons d)

theorem insertDoc_sorted (d : Doc) {l : List Doc} (h : SortedByLastUpdatedDesc l) :
    SortedByLastUpdatedDesc (insertDoc d l) := by
  induction l with
  | nil => simp [insertDoc, SortedByLastUpdatedDesc]
  | cons x xs ih =>
    rcases List.pairwise_cons.mp h with ⟨hx, hxs⟩
    by_cases hk : keyOf x ≤ keyOf d
    · rw [insertDoc, if_pos hk]
      refine List.pairwise_cons.mpr ⟨?_, h⟩
      intro y hy
      rcases List.mem_cons.mp hy with rfl | hy
      · exact hk
      · exact le_trans (hx y hy) hk
    · rw [insertDoc, if_neg hk]
      refine List.pairwise_cons.mpr ⟨?_, ih hxs⟩
      intro y hy
      rcases List.mem_cons.mp ((insertDoc_perm d xs).mem_iff.mp hy) with rfl | hy
      · exact (not_le.mp hk).le
      · exact hx y hy

theorem sortDocs_sorted (l : List Doc) : SortedByLastUpdatedDesc (sortDocs l) := by
  induction l with
  | nil => simp [sortDocs, SortedByLastUpdatedDesc]
  | cons d ds ih => exact insertDoc_sorted d ih

theorem sortDocs_eq_of_sorted :
    ∀ (l : List Doc), SortedByLastUpdatedDesc l → sortDocs l = l
  | [], _ => rfl
  | d :: ds, h => by
    rcases List.pairwise_cons.mp h with ⟨hd, hds⟩
    rw [sortDocs, sortDocs_eq_of_sorted ds hds]
    cases ds with
    | nil => rfl
    | cons x xs =>
      rw [insertDoc, if_pos (hd x (List.mem_cons_self x xs))]

theorem map_id_on {α : Type} (f : α → α) :
    ∀ (l : List α), (∀ x ∈ l, f x = x) → l.map f = l
  | [], _ => rfl
  | x :: xs, h => by
    rw [List.map_cons, h x (List.mem_cons_self x xs),
      map_id_on f xs fun y hy => h y (List.mem_cons_of_mem x hy)]

theorem mergeF_document_id (e d : Doc) :
    (mergeF e d).document_id = d.document_id := by
  unfold mergeF
  by_cases h : d.document_id = e.document_id
  · rw [if_pos h]; exact h.symm
  · rw [if_neg h]

theorem ids_mapMerge (e : Doc) : ∀ (l : List Doc), ids (mapMerge e l) = ids l
  | [] => rfl
  | d :: ds => by
    show (mergeF e d).document_id :: ids (mapMerge e ds) = d.document_id :: ids ds
    rw [mergeF_document_id, ids_mapMerge e ds]

theorem updateFirst_eq_mapMerge {e : Doc} :
    ∀ {l : List Doc}, (ids l).Nodup → updateFirst e l = mapMerge e l := by
  intro l
  induction l with
  | nil => intro _; rfl
  | cons d ds ih =>
    intro h
    have h1 : d.document_id ∉ ids ds := (List.nodup_cons.mp h).1
    have h2 : (ids ds).Nodup := (List.nodup_cons.mp h).2
    by_cases hd : d.document_id = e.document_id
    · rw [updateFirst, if_pos hd]
      show mergeDoc d e :: ds = mergeF e d :: mapMerge e ds
      rw [show mergeF e d = mergeDoc d e from if_pos hd]
      have : mapMerge e ds = ds := by
        refine map_id_on _ ds fun x hx => ?_
        have hxid : x.document_id ≠ e.document_id := by
          intro hxe
          exact h1 (hd ▸ hxe ▸ List.mem_map_of_mem Doc.document_id hx)
        exact if_neg hxid
      rw [this]
    · rw [updateFirst, if_neg hd]
      show d :: updateFirst e ds = mergeF e d :: mapMerge e ds
      rw [show mergeF e d = d from if_neg hd, ih h2]

theorem mapMerge_override {e : Doc} {l : List Doc} :
    ∀ x ∈ mapMerge e l, x.document_id = e.document_id →
      x.override_in_progress = some false ∧ x.override_type = none := by
  intro x hx hid
  rcases List.mem_map.mp hx with ⟨d, _, rfl⟩
  by_cases h : d.document_id = e.document_id
  · rw [show mergeF e d = mergeDoc d e from if_pos h]
    exact ⟨rfl, rfl⟩
  · rw [show mergeF e d = d from if_neg h] at hid
    exact absurd hid h

theorem updateFirst_presence {e : Doc} :
    ∀ {l : List Doc}, (∃ d ∈ l, d.document_id = e.document_id) →
      ∃ x ∈ updateFirst e l, x.document_id = e.document_id := by
  intro l
  induction l with
  | nil => intro h; simp at h
  | cons d ds ih =>
    intro h
    by_cases hd : d.document_id = e.document_id
    · refine ⟨mergeDoc d e, ?_, rfl⟩
      rw [updateFirst, if_pos hd]
      exact List.mem_cons_self _ _
    · rcases h with ⟨d', hd', hid⟩
      rcases List.mem_cons.mp hd' with rfl | hmem
      · exact absurd hid hd
      · rcases ih ⟨d', hmem, hid⟩ with ⟨x, hx, hxid⟩
        refine ⟨x, ?_, hxid⟩
        rw [updateFirst, if_neg hd]
        exact List.mem_cons_of_mem d hx

theorem upsert_of_present {docs : List Doc} {e : Doc}
    (h : ∃ d ∈ docs, d.document_id = e.document_id) :
    upsert docs e = sortDocs (updateFirst e docs) := by
  rw [upsert, if_pos h]

theorem upsert_of_absent {docs : List Doc} {e : Doc}
    (h : ¬ ∃ d ∈ docs, d.document_id = e.document_id) :
    upsert docs e = sortDocs (e :: docs) := by
  rw [upsert, if_neg h]

theorem upsert_sorted (docs : List Doc) (e : Doc) :
    SortedByLastUpdatedDesc (upsert docs e) := by
  by_cases h : ∃ d ∈ docs, d.document_id = e.document_id
  · rw [upsert_of_present h]; exact sortDocs_sorted _
  · rw [upsert_of_absent h]; exact sortDocs_sorted _

theorem ids_sortDocs_perm (l : List Doc) : List.Perm (ids (sortDocs l)) (ids l) :=
  (sortDocs_perm l).map Doc.document_id

theorem ids_updateFirst (e : Doc) : ∀ (l : List Doc), ids (updateFirst e l) = ids l
  | [] => rfl
  | d :: ds => by
    by_cases hd : d.document_id = e.document_id
    · rw [updateFirst, if_pos hd]
      show (mergeDoc d e).document_id :: ids ds = d.document_id :: ids ds
      rw [show (mergeDoc d e).document_id = e.document_id from rfl, hd]
    · rw [updateFirst, if_neg hd]
      show d.document_id :: ids (updateFirst e ds) = d.document_id :: ids ds
      rw [ids_updateFirst e ds]

theorem upsert_nodup {docs : List Doc} {e : Doc} (h : (ids docs).Nodup) :
    (ids (upsert docs e)).Nodup := by
  by_cases hp : ∃ d ∈ docs, d.document_id = e.document_id
  · rw [upsert_of_present hp]
    exact (ids_sortDocs_perm _).nodup_iff.mpr (by rw [ids_updateFirst]; exact h)
  · rw [upsert_of_absent hp]
    refine (ids_sortDocs_perm _).nodup_iff.mpr ?_
    show (e.document_id :: ids docs).Nodup
    refine List.nodup_cons.mpr ⟨?_, h⟩
    intro hmem
    rcases List.mem_map.mp hmem with ⟨d, hd, hid⟩
    exact hp ⟨d, hd, hid⟩

theorem upsert_presence (docs : List Doc) (e : Doc) :
    ∃ x ∈ upsert docs e, x.document_id = e.document_id := by
  by_cases hp : ∃ d ∈ docs, d.document_id = e.document_id
  · rw [upsert_of_present hp]
    rcases updateFirst_presence hp with ⟨x, hx, hid⟩
    exact ⟨x, (sortDocs_perm _).mem_iff.mpr hx, hid⟩
  · rw [upsert_of_absent hp]
    exact ⟨e, (sortDocs_perm _).mem_iff.mpr (List.mem_cons_self e docs), rfl⟩

theorem upsert_upsert_of_present {docs : List Doc} {e : Doc}
    (hN : (ids docs).Nodup) (hp : ∃ d ∈ docs, d.document_id = e.document_id) :
    upsert (upsert docs e) e = upsert docs e := by
  have hAperm : List.Perm (upsert docs e) (mapMerge e docs) := by
    rw [upsert_of_present hp, updateFirst_eq_mapMerge hN]
    exact sortDocs_perm _
  have hAN : (ids (upsert docs e)).Nodup := upsert_nodup hN
  have hpA : ∃ d ∈ upsert docs e, d.document_id = e.document_id := upsert_presence docs e
  rw [upsert_of_present hpA, updateFirst_eq_mapMerge hAN]
  have hfix : ∀ x ∈ upsert docs e, mergeF e x = x := by
    intro x hxA
    rcases List.mem_map.mp (hAperm.mem_iff.mp hxA) with ⟨d, _, rfl⟩
    by_cases hdid : d.document_id = e.document_id
    · rw [show mergeF e d = mergeDoc d e from if_pos hdid]
      rw [show mergeF e (mergeDoc d e) = mergeDoc (mergeDoc d e) e from
        if_pos (show (mergeDoc d e).document_id = e.document_id from rfl)]
      exact mergeDoc_mergeDoc d e
    · rw [show mergeF e d = d from if_neg hdid]
      exact if_neg hdid
  rw [show mapMerge e (upsert docs e) = upsert docs e from
    map_id_on _ (upsert docs e) hfix]
  exact sortDocs_eq_of_sorted _ (upsert_sorted docs e)

theorem processEvent_documents (st : ClientState) (e : Doc) :
    (processEvent st e).documents = upsert st.documents e := rfl

/-- Invariant tying the number of live (scheduled, uncancelled) timers
to whether the `reconnectInterval` variable holds one. -/
def TimerInv (s : ChannelState) : Prop :=
  s.liveTimers = if s.timerSlot then 1 else 0

theorem chStep_inv {s : ChannelState} (h : TimerInv s) (ev : ChannelEvent) :
    TimerInv (chStep s ev) := by
  unfold TimerInv at h ⊢
  by_cases hs : s.timerSlot <;> simp [hs] at h <;>
    cases ev <;> simp [chStep, hs, h]

theorem chRun_inv (evs : List ChannelEvent) : TimerInv (chRun evs) := by
  suffices h : ∀ s, TimerInv s → TimerInv (evs.foldl chStep s) from h chInit rfl
  intro s
  induction evs generalizing s with
  | nil => intro h; exact h
  | cons ev evs ih => intro h; exact ih _ (chStep_inv h ev)

/-- C1: for a document already in the store that has a pending
optimistic action, processing any successfully parsed push event with
the same `document_id` leaves every store entry carrying that id with
`override_in_progress = false` and `override_type` cleared, whatever the
event's `status` is. -/
theorem clearOverrideOnPush (st : ClientState) (e d : Doc)
    (hN : (ids st.documents).Nodup) (hd : d ∈ st.documents)
    (hid : d.document_id = e.document_id)
    (hip : d.override_in_progress = some true) (hot : d.override_type.isSome) :
    ∀ x ∈ (processEvent st e).documents, x.document_id = e.document_id →
      x.override_in_progress = some false ∧ x.override_type = none := by
  intro x hx hxid
  have hp : ∃ d' ∈ st.documents, d'.document_id = e.document_id := ⟨d, hd, hid⟩
  rw [processEvent_documents, upsert_of_present hp, updateFirst_eq_mapMerge hN] at hx
  exact mapMerge_override x ((sortDocs_perm _).mem_iff.mp hx) hxid

/-- Store entry with a pending re-classify action, used to witness C1. -/
def docC1 : Doc :=
  { document_id := "d1", status := some "Re-re-classify...", last_updated := some 0,
    override_in_progress := some true, override_type := some "re-classify" }

/-- Push event confirming activity on `docC1`'s document. -/
def evC1 : Doc :=
  { document_id := "d1", status := some "Classified", last_updated := some 5 }

theorem clearOverrideOnPush_witness :
    (mergeDoc docC1 evC1).override_in_progress = some false ∧
      (mergeDoc docC1 evC1).override_type = none :=
  clearOverrideOnPush ⟨[docC1], none, none, true⟩ evC1 docC1 (by decide) (by decide)
    (by decide) (by decide) (by decide) (mergeDoc docC1 evC1) (by decide) (by decide)

/-- C4: a push frame that fails to parse as JSON leaves the whole client
state (document store, history cache, error banner, connection flag)
exactly as it was; the parse exception is raised inside the handler body
and caught there, so nothing escapes and the channel is not closed. -/
theorem malformedFrameLeavesStateUnchanged (st : ClientState) :
    onmessage st none = st ∧ ∃ msg, onmessageBody st none = Except.error msg :=
  ⟨rfl, "SyntaxError: JSON.parse", rfl⟩

/-- C5: along every sequence of channel lifecycle callbacks at most one
reconnect timer is live — repeated closes without an intervening open
never schedule a second timer — and a successful open always cancels the
pending timer, leaving none live. -/
theorem reconnectTimerSingular (evs : List ChannelEvent) :
    (chRun evs).liveTimers ≤ 1 ∧
      (chRun (evs ++ [ChannelEvent.opened])).liveTimers = 0 := by
  have h := chRun_inv evs
  unfold TimerInv at h
  constructor
  · rw [h]; by_cases hs : (chRun evs).timerSlot <;> simp [hs]
  · unfold chRun at h ⊢
    rw [List.foldl_append]
    show (chStep (List.foldl chStep chInit evs) ChannelEvent.opened).liveTimers = 0
    by_cases hs : (List.foldl chStep chInit evs).timerSlot <;>
      simp [hs] at h <;> simp [chStep, hs, h]

theorem append_middle_ne (p m d a b : String) (h : a.length ≠ b.length) :
    p ++ a ++ m ++ d ≠ p ++ b ++ m ++ d := by
  intro he
  apply h
  have hlen := congrArg String.length he
  simp only [String.length_append] at hlen
  omega

/-- C6: a dispatch rejected by the backend (an HTTP error response)
changes nothing but the error banner — in particular no document is
mutated — and for every status code the surfaced message differs
between re-extract, re-classify and re-route. -/
theorem rejectedDispatchKeepsStoreAndClassifiesError
    (st : ClientState) (action docId : String) (code : Nat) (detail : String) :
    handleManualAction st action docId (DispatchOutcome.rejected code detail)
        = { st with error := some (rejectionMessage action code detail) } ∧
    rejectionMessage "re-extract" code detail ≠ rejectionMessage "re-classify" code detail ∧
    rejectionMessage "re-extract" code detail ≠ rejectionMessage "re-route" code detail ∧
    rejectionMessage "re-classify" code detail ≠ rejectionMessage "re-route" code detail := by
  refine ⟨rfl, ?_, ?_, ?_⟩ <;>
    · unfold rejectionMessage
      by_cases h4 : code = 404
      · rw [if_pos h4, if_pos h4]; decide
      · by_cases h5 : code = 500
        · rw [if_neg h4, if_neg h4, if_pos h5, if_pos h5]; decide
        · rw [if_neg h4, if_neg h4, if_neg h5, if_neg h5]
          exact append_middle_ne _ _ _ _ _ (by decide)

/-- Event on a document id absent from the store, used against C2. -/
def evC2 : Doc :=
  { document_id := "d2", status := some "Extracted", last_updated := some 1 }

/-- Document already present in the store, id `"d2"`, used for C2. -/
def docC2 : Doc :=
  { document_id := "d2", status := some "Ingested", last_updated := some 0 }

/-- C2 counterexample: on an empty store the first application inserts
the raw event (its override fields are absent), while the second
application explicitly sets `override_in_progress = false` and clears
`override_type`, so the store states differ. -/
theorem upsertNotIdempotentOnNewId :
    upsert (upsert [] evC2) evC2 ≠ upsert [] evC2 := by decide

/-- C2 amended: on a store with pairwise-distinct ids, upsert is
idempotent whenever the event's id is already present; in general the
second and third applications agree (only the very first application of
an unseen id differs, by the explicit clearing of the override fields). -/
theorem upsertIdempotenceCharacterization (docs : List Doc) (e : Doc)
    (hN : (ids docs).Nodup) :
    ((∃ d ∈ docs, d.document_id = e.document_id) →
      upsert (upsert docs e) e = upsert docs e) ∧
    upsert (upsert (upsert docs e) e) e = upsert (upsert docs e) e := by
  refine ⟨fun hp => upsert_upsert_of_present hN hp, ?_⟩
  exact upsert_upsert_of_present (upsert_nodup hN) (upsert_presence docs e)

theorem upsertIdempotenceCharacterization_witness :
    upsert (upsert [docC2] evC2) evC2 = upsert [docC2] evC2 :=
  (upsertIdempotenceCharacterization [docC2] evC2 (by decide)).1
    ⟨docC2, by decide, by decide⟩

/-- C7: upserting a well-formed event whose id is unknown to the store
adds exactly one new document: the length grows by one, every
pre-existing document is still present, exactly one store entry carries
the new id, and it is the event itself. -/
theorem upsertCreatesOnUnknownId (docs : List Doc) (e : Doc)
    (hwf : e.last_updated.isSome)
    (habs : ∀ d ∈ docs, d.document_id ≠ e.document_id) :
    (upsert docs e).length = docs.length + 1 ∧
    (∀ d ∈ docs, d ∈ upsert docs e) ∧
    (upsert docs e).countP (fun d => d.document_id == e.document_id) = 1 ∧
    e ∈ upsert docs e := by
  have hne : ¬ ∃ d ∈ docs, d.document_id = e.document_id := by
    rintro ⟨d, hd, hid⟩
    exact habs d hd hid
  rw [upsert_of_absent hne]
  have hperm := sortDocs_perm (e :: docs)
  refine ⟨?_, ?_, ?_, ?_⟩
  · rw [hperm.length_eq]; rfl
  · intro d hd
    exact hperm.mem_iff.mpr (List.mem_cons_of_mem e hd)
  · rw [hperm.countP_eq]
    have h0 : docs.countP (fun d => d.document_id == e.document_id) = 0 := by
      rw [List.countP_eq_zero]
      intro d hd
      simpa using habs d hd
    rw [List.countP_cons, h0]
    simp
  · exact hperm.mem_iff.mpr (List.mem_cons_self e docs)

/-- Well-formed event with unknown id `"d7"`, used to witness C7. -/
def evC7 : Doc :=
  { document_id := "d7", status := some "Ingested", last_updated := some 3 }

theorem upsertCreatesOnUnknownId_witness :
    (upsert [docC2] evC7).length = 2 ∧ docC2 ∈ upsert [docC2] evC7 ∧
    (upsert [docC2] evC7).countP (fun d => d.document_id == evC7.document_id) = 1 ∧
    evC7 ∈ upsert [docC2] evC7 := by
  obtain ⟨h1, h2, h3, h4⟩ := upsertCreatesOnUnknownId [docC2] evC7 (by decide) (by decide)
  exact ⟨h1, h2 docC2 (by decide), h3, h4⟩

/-- The dashboard's initial state (`useState([])` etc.). -/
def initState : ClientState := ⟨[], none, none, false⟩

/-- Snapshot row with the older timestamp, listed first by the backend. -/
def docC3a : Doc :=
  { document_id := "a3", status := some "Ingested", last_updated := some 0 }

/-- Snapshot row with the newer timestamp, listed second by the backend. -/
def docC3b : Doc :=
  { document_id := "b3", status := some "Extracted", last_updated := some 1 }

/-- C3 counterexample: loading a snapshot whose rows arrive oldest-first
leaves the document list unsorted — the snapshot path stores the
backend's list as received, without re-sorting. -/
theorem snapshotLeavesListUnsorted :
    ¬ SortedByLastUpdatedDesc
      ((runOps initState [Op.snapshot [docC3a, docC3b]]).documents) := by
  intro h
  have hle := (List.pairwise_cons.mp h).1 docC3b (List.mem_cons_self _ _)
  simp [keyOf, docC3a, docC3b] at hle

/-- C3 amended: processing any successfully parsed push event sorts the
entire document list by `last_updated` descending, and every operation
other than a snapshot load preserves that order (dispatches rewrite
fields positionally without re-sorting, malformed frames and row clicks
leave the list alone); only a snapshot load can break the order, because
it stores the backend's list exactly as received. -/
theorem pushSortsAndNonSnapshotOpsPreserveOrder :
    (∀ (st : ClientState) (e : Doc),
      SortedByLastUpdatedDesc ((processEvent st e).documents)) ∧
    (∀ (st : ClientState) (op : Op), (∀ docs, op ≠ Op.snapshot docs) →
      SortedByLastUpdatedDesc st.documents →
      SortedByLastUpdatedDesc ((applyOp st op).documents)) := by
  constructor
  · intro st e
    rw [processEvent_documents]
    exact upsert_sorted _ _
  · intro st op hns hs
    cases op with
    | snapshot docs => exact absurd rfl (hns docs)
    | pushFrame f =>
      cases f with
      | none => exact hs
      | some e => exact upsert_sorted _ _
    | dispatch action docId outcome =>
      cases outcome with
      | accepted =>
        show SortedByLastUpdatedDesc (optimisticUpdate st.documents action docId)
        have hkey : ∀ x : Doc, keyOf
            (if x.document_id = docId then
              { x with
                  status := some ("Re-" ++ action ++ "...")
                  override_in_progress := some true
                  override_type := some action }
            else x) = keyOf x := by
          intro x
          by_cases hx : x.document_id = docId <;> simp [hx, keyOf]
        unfold optimisticUpdate SortedByLastUpdatedDesc at *
        rw [List.pairwise_map]
        refine hs.imp ?_
        intro a b hab
        rw [hkey a, hkey b]
        exact hab
      | rejected code detail => exact hs
      | networkError => exact hs
    | rowClick docId r =>
      show SortedByLastUpdatedDesc ((handleRowClick st docId r).1.documents)
      have hdocs : ((handleRowClick st docId r).1).documents = st.documents := by
        cases hE : st.expandedRow with
        | none => cases r <;> simp [handleRowClick, expandRow, hE]
        | some ex =>
          by_cases hid : ex.id = docId
          · simp [handleRowClick, hE, hid]
          · cases r <;> simp [handleRowClick, expandRow, hE, hid]
      rw [hdocs]
      exact hs

theorem pushSortsAndNonSnapshotOpsPreserveOrder_witness :
    SortedByLastUpdatedDesc ((applyOp initState (Op.pushFrame none)).documents) :=
  pushSortsAndNonSnapshotOpsPreserveOrder.2 initState (Op.pushFrame none)
    (fun _ h => Op.noConfusion h) List.Pairwise.nil

/-- Document already known to the store, with no history-cache entry. -/
def docC8 : Doc :=
  { document_id := "d8", status := some "Ingested", last_updated := some 0 }

/-- Push event for the already-known document `"d8"`. -/
def evC8 : Doc :=
  { document_id := "d8", status := some "Extracted", last_updated := some 1 }

/-- Store containing `"d8"` while the history cache holds no entry. -/
def stC8 : ClientState := ⟨[docC8], none, none, true⟩

/-- C8 counterexample: a push event for a document that is already in
the store but has no history-cache entry creates no timeline at all —
the one-element timeline is only created for a document unknown to the
store. -/
theorem knownDocWithoutCacheEntryGetsNoTimeline :
    (processEvent stC8 evC8).expandedRow = none ∧
    (processEvent stC8 evC8).expandedRow ≠ some ⟨"d8", [evC8], none⟩ := by decide

/-- C8 amended: a push event for a document id absent from the store
(first sighting) installs the one-element timeline `[event]`; for an
already-known document with no existing cache entry the cache stays
empty — no entry is created. -/
theorem historyEntryOnFirstSighting (st : ClientState) (e : Doc) :
    ((∀ d ∈ st.documents, d.document_id ≠ e.document_id) →
      (processEvent st e).expandedRow = some ⟨e.document_id, [e], none⟩) ∧
    ((∃ d ∈ st.documents, d.document_id = e.document_id) →
      st.expandedRow = none → (processEvent st e).expandedRow = none) := by
  constructor
  · intro habs
    have hne : ¬ ∃ d ∈ st.documents, d.document_id = e.document_id := by
      rintro ⟨d, hd, hid⟩
      exact habs d hd hid
    simp [processEvent, hne]
  · intro hp hnone
    simp [processEvent, hp, hnone]

theorem historyEntryOnFirstSighting_witness :
    (processEvent initState evC8).expandedRow = some ⟨evC8.document_id, [evC8], none⟩ :=
  (historyEntryOnFirstSighting initState evC8).1 (by decide)

/-- The single event shown in the expanded history of `"d9"`. -/
def evC9 : Doc :=
  { document_id := "d9", status := some "Ingested", last_updated := some 0 }

/-- State in which document `"d9"` is expanded with a loaded history. -/
def stC9 : ClientState := ⟨[evC9], some ⟨"d9", [evC9], none⟩, none, true⟩

/-- C9 counterexample: with `"d9"` expanded, clicking it twice
(collapse, then re-expand) performs a new history fetch on the second
click, and the resulting entry is the freshly fetched history rather
than the previously cached one. -/
theorem collapseThenReexpandRefetches :
    ((handleRowClick ((handleRowClick stC9 "d9" (HistoryFetch.okArray [])).1) "d9"
        (HistoryFetch.okArray [])).2 = true) ∧
    ((handleRowClick ((handleRowClick stC9 "d9" (HistoryFetch.okArray [])).1) "d9"
        (HistoryFetch.okArray [])).1.expandedRow ≠ some ⟨"d9", [evC9], none⟩) := by
  decide

/-- C9 amended: collapsing the expanded document discards its cache
entry (`expandedRow` becomes null, no fetch), and re-expanding it
always performs a new history fetch whose response becomes the entry. -/
theorem collapseDiscardsAndReexpandFetches (st : ClientState)
    (ex : ExpandedRow) (docId : String) (r : HistoryFetch) (h : List Doc)
    (hex : st.expandedRow = some ex) (hid : ex.id = docId) :
    (handleRowClick st docId r).1.expandedRow = none ∧
    (handleRowClick st docId r).2 = false ∧
    (handleRowClick (handleRowClick st docId r).1 docId (HistoryFetch.okArray h)).2
        = true ∧
    (handleRowClick (handleRowClick st docId r).1 docId
        (HistoryFetch.okArray h)).1.expandedRow = some ⟨docId, h, none⟩ := by
  simp [handleRowClick, expandRow, hex, hid]

theorem collapseDiscardsAndReexpandFetches_witness :
    (handleRowClick stC9 "d9" (HistoryFetch.okArray [])).1.expandedRow = none ∧
    (handleRowClick stC9 "d9" (HistoryFetch.okArray [])).2 = false ∧
    (handleRowClick (handleRowClick stC9 "d9" (HistoryFetch.okArray [])).1 "d9"
        (HistoryFetch.okArray [])).2 = true ∧
    (handleRowClick (handleRowClick stC9 "d9" (HistoryFetch.okArray [])).1 "d9"
        (HistoryFetch.okArray [])).1.expandedRow = some ⟨"d9", [], none⟩ :=
  collapseDiscardsAndReexpandFetches stC9 ⟨"d9", [evC9], none⟩ "d9"
    (HistoryFetch.okArray []) [] rfl rfl

/-- C10: the optimistic write of an accepted dispatch rewrites the list
positionally (no re-sort): each entry keeps its identity fields
(`document_id`, `filename`, `doc_type`, `confidence`,
`routing_destination`, `last_updated`, `vip_level`); entries whose id
differs from the dispatched one are exactly unchanged, and the matching
entry gets precisely `status = "Re-<action>..."`,
`override_in_progress = true`, `override_type = action`. -/
theorem optimisticWriteFrame (st : ClientState) (action docId : String) :
    List.Forall₂ (fun d d2 =>
        d2.document_id = d.document_id ∧ d2.filename = d.filename ∧
        d2.doc_type = d.doc_type ∧ d2.confidence = d.confidence ∧
        d2.routing_destination = d.routing_destination ∧
        d2.last_updated = d.last_updated ∧ d2.vip_level = d.vip_level ∧
        (d.document_id ≠ docId → d2 = d) ∧
        (d.document_id = docId →
          d2.status = some ("Re-" ++ action ++ "...") ∧
          d2.override_in_progress = some true ∧ d2.override_type = some action))
      st.documents
      ((handleManualAction st action docId DispatchOutcome.accepted).documents) := by
  show List.Forall₂ _ st.documents (optimisticUpdate st.documents action docId)
  unfold optimisticUpdate
  rw [List.forall₂_map_right_iff]
  rw [List.forall₂_same]
  intro d _
  by_cases hx : d.document_id = docId <;> simp [hx]

/-- Two-document store used to witness the optimistic-write frame. -/
def stC10 : ClientState :=
  ⟨[docC2, evC7], some ⟨"d2", [docC2], none⟩, none, true⟩

theorem optimisticWriteFrame_witness :
    List.Forall₂ (fun d d2 =>
        d2.document_id = d.document_id ∧ d2.filename = d.filename ∧
        d2.doc_type = d.doc_type ∧ d2.confidence = d.confidence ∧
        d2.routing_destination = d.routing_destination ∧
        d2.last_updated = d.last_updated ∧ d2.vip_level = d.vip_level ∧
        (d.document_id ≠ "d2" → d2 = d) ∧
        (d.document_id = "d2" →
          d2.status = some ("Re-" ++ "re-classify" ++ "...") ∧
          d2.override_in_progress = some true ∧
          d2.override_type = some "re-classify"))
      stC10.documents
      ((handleManualAction stC10 "re-classify" "d2" DispatchOutcome.accepted).documents) :=
  optimisticWriteFrame stC10 "re-classify" "d2"

end DocProcessor
